import Mathlib

/-
  Verification development for the pressure-feedback training software.

  The definitions below are shallow embeddings of the Python sources:
  - src/util/block_manager.py               (BlockManager)
  - src/util/device/realtime_hid_reader.py  (RealTimeHIDReader)
  - src/util/animation/two_steps_score_animation.py (TwoStepScorer)
  - src/util/qt/base_experiment_screen.py   (realign_into_8ms_sampling)

  Numeric values (Python ints and floats) are modelled as rationals or
  integers, so all arithmetic is exact; Python exceptions are modelled as
  explicit error results; the background sampling thread is modelled as a
  small-step transition system over an explicit program counter.
-/

namespace PressureSW

/-! ## BlockManager (src/util/block_manager.py) -/

/-- One experiment block as produced by BlockManager.load_design:
a dict with keys name, start, stop. -/
structure Block where
  name : String
  start : ℚ
  stop : ℚ
  deriving Repr, DecidableEq

/-- The mutable state of a BlockManager object: the remaining block queue,
the total duration, and the empty-design flag. -/
structure BlockManager where
  blocks : List Block
  total : ℚ
  empty_design_flag : Bool
  deriving Repr, DecidableEq

/-- The mark_map lookup with default of the source: Real maps to T,
Fake to F, Hide to the plus sign, anything else to the question mark. -/
def mark_map (name : String) : String :=
  if name = "Real" then "T"
  else if name = "Fake" then "F"
  else if name = "Hide" then "+"
  else "?"

/-- The block-generation loop of BlockManager.load_design: walk the design
buffer accumulating the offset, producing one block per (name, duration). -/
def mkBlocks (offset : ℚ) : List (String × ℚ) → List Block
  | [] => []
  | (name, duration) :: rest =>
    ⟨name, offset, offset + duration⟩ :: mkBlocks (offset + duration) rest

/-- BlockManager.load_design: an empty design buffer sets the empty-design
flag and keeps the class-level defaults (no blocks, total 0); otherwise the
blocks are generated with cumulative offsets and total is the final offset,
which equals the sum of the durations. -/
def load_design : List (String × ℚ) → BlockManager
  | [] => ⟨[], 0, true⟩
  | buffer => ⟨mkBlocks 0 buffer, (buffer.map Prod.snd).sum, false⟩

/-- The shape of a value produced by one call of BlockManager.consume:
either the usual 4-tuple, the 3-tuple of the not-started branch (the source
returns only mark, t1, t2 there), or the ZeroDivisionError raised by the
statement computing remain_ratio when total is zero. -/
inductive ConsumeResult where
  | tuple4 (mark : String) (t1 t2 q : ℚ)
  | tuple3 (mark : String) (t1 t2 : ℚ)
  | zeroDivisionError
  deriving Repr, DecidableEq

/-- The tail of BlockManager.consume after the pop loop: the second
no-blocks-remained check, then mark, t1, t2 and the remain-ratio division,
which raises ZeroDivisionError when total is zero. In this branch the
empty-design flag is necessarily false. -/
def consumeAfterDrop (total : ℚ) (remaining : List Block) (t : ℚ) :
    ConsumeResult × BlockManager :=
  match remaining with
  | [] => (.tuple4 "Block empty" 0 0 0, ⟨[], total, false⟩)
  | b0 :: r =>
    if total = 0 then (.zeroDivisionError, ⟨b0 :: r, total, false⟩)
    else
      (.tuple4 (mark_map b0.name) (b0.stop - t) (total - t) ((total - t) / total),
        ⟨b0 :: r, total, false⟩)

/-- BlockManager.consume(t), returning the produced value together with the
updated manager state (the source mutates the blocks list in place). The
while-loop popping every front block with t strictly greater than its stop is
a dropWhile on the strict predicate. -/
def consume (bm : BlockManager) (t : ℚ) : ConsumeResult × BlockManager :=
  if bm.empty_design_flag then (.tuple4 "O" (-1) (-1) 1, bm)
  else match bm.blocks with
  | [] => (.tuple4 "Block empty" 0 0 0, bm)
  | b :: bs =>
    if t < b.start then
      (.tuple3 "N" (b.start - t) (bm.total - t), bm)
    else
      consumeAfterDrop bm.total
        (List.dropWhile (fun blk => decide (blk.stop < t)) (b :: bs)) t

/-! ## Pressure conversion (RealTimeHIDReader.number2pressure) -/

/-- RealTimeHIDReader.number2pressure: bias is offset_g0, the gain is
200 divided by max(100, g200 - g0) (the safe divide of the source), and the
result is (value - bias) times the gain. Calibration values are the integers
read from the correction files; the float result is modelled exactly in ℚ. -/
def number2pressure (g0 g200 offset_g0 value : ℤ) : ℚ :=
  ((value : ℚ) - (offset_g0 : ℚ)) * (200 / ((max 100 (g200 - g0) : ℤ) : ℚ))

/-! ## TwoStepScorer (src/util/animation/two_steps_score_animation.py) -/

/-- The mutable scorer fields: state is the string tag used by the source
(1st or 2nd), score_1st the signed mean deviation, score_2nd the clamped
accumulator. -/
structure ScorerState where
  state : String
  score_1st : ℚ
  score_2nd : ℚ
  deriving Repr, DecidableEq

/-- The scorer configuration: ref_value comes from the options singleton
(yReference), and mean_threshold / std_threshold are class attributes that
the screen overwrites from the options at runtime. -/
structure ScorerParams where
  ref_value : ℚ
  mean_threshold : ℚ
  std_threshold : ℚ
  deriving Repr, DecidableEq

/-- The state set by TwoStepScorer.reset_scores and by construction. -/
def initScorerState : ScorerState := ⟨"1st", 0, 0⟩

/-- TwoStepScorer._limit_scores: clamp score_2nd into the range (0, 100);
score_1st is deliberately left unclamped by the source. -/
def limit_scores (s : ScorerState) : ScorerState :=
  { s with score_2nd := min 100 (max 0 s.score_2nd) }

/-- TwoStepScorer._update_score: data None or empty list leaves the state
unchanged; otherwise mean and std are taken from the last data entry,
score_1st is always recomputed, and the two-phase logic runs: in the 1st
state a strict comparison promotes, in the 2nd state a strict comparison
demotes, otherwise score_2nd moves by 10 according to std and is clamped. -/
def update_score (p : ScorerParams) (s : ScorerState) (data : Option (List (ℚ × ℚ))) :
    ScorerState :=
  match data with
  | none => s
  | some d =>
    match d.getLast? with
    | none => s
    | some (mean, std) =>
      let score := mean - p.ref_value
      let s1 : ScorerState := { s with score_1st := score }
      if s1.state = "1st" then
        let s2 := limit_scores s1
        if |score| < p.mean_threshold then { s2 with state := "2nd", score_2nd := 0 }
        else s2
      else if s1.state = "2nd" then
        let diff := |mean - p.ref_value|
        if diff > p.mean_threshold then
          { limit_scores { s1 with score_2nd := 0 } with state := "1st" }
        else
          limit_scores
            { s1 with score_2nd :=
                s1.score_2nd + (if std < p.std_threshold then 10 else -10) }
      else s1

/-! ## peek and peek_by_seconds (RealTimeHIDReader) -/

/-- Python list slicing l[-n:] for an arbitrary integer n: for n at most 0
the start index is the nonnegative -n (clamped to the length), and for
positive n the start index is length - n clamped below at 0. In particular
n = 0 yields the whole list. -/
def pyTailSlice {α : Type} (n : ℤ) (l : List α) : List α :=
  if n ≤ 0 then l.drop (-n).toNat else l.drop (l.length - n.toNat)

/-- The two logs of RealTimeHIDReader: buffer rows are (value, raw_value,
fake value, fake digital, elapsed seconds) and buffer_delay rows are
(avg, fake avg, std, fake std, delayed timestamp); both are 5-tuples of
numbers. -/
structure ReaderBuffers where
  buffer : List (ℚ × ℚ × ℚ × ℚ × ℚ)
  buffer_delay : List (ℚ × ℚ × ℚ × ℚ × ℚ)
  deriving Repr, DecidableEq

/-- The options singleton value idealSamplingRate, 125 Hz. -/
def sample_rate : ℤ := 125

/-- RealTimeHIDReader.peek(n, peek_delay): the tail slice of buffer_delay
when peek_delay is set, of buffer otherwise. -/
def peek (r : ReaderBuffers) (n : ℤ) (peek_delay : Bool) : List (ℚ × ℚ × ℚ × ℚ × ℚ) :=
  if peek_delay then pyTailSlice n r.buffer_delay else pyTailSlice n r.buffer

/-- Python int() applied to a rational: truncation toward zero. -/
def pyInt (q : ℚ) : ℤ := if 0 ≤ q then ⌊q⌋ else -⌊-q⌋

/-- RealTimeHIDReader.peek_by_seconds(sec, peek_delay): n is int(sec times
the sample rate), then peek. -/
def peek_by_seconds (r : ReaderBuffers) (sec : ℚ) (peek_delay : Bool) :
    List (ℚ × ℚ × ℚ × ℚ × ℚ) :=
  peek r (pyInt (sec * (sample_rate : ℚ))) peek_delay

/-! ## Resampler (realign_into_8ms_sampling, src/util/qt/base_experiment_screen.py) -/

/-- A row of the raw log: (pressure value, digital value, fake pressure
value, fake digital value, seconds passed from the start). -/
abbrev Row : Type := ℚ × ℚ × ℚ × ℚ × ℚ

/-- The timestamp of a row, the final column accessed as e[-1]. -/
def rowT (e : Row) : ℚ := e.2.2.2.2

/-- Column 0 of a row. -/
def rowC0 (e : Row) : ℚ := e.1

/-- Column 1 of a row. -/
def rowC1 (e : Row) : ℚ := e.2.1

/-- Column 2 of a row. -/
def rowC2 (e : Row) : ℚ := e.2.2.1

/-- Column 3 of a row. -/
def rowC3 (e : Row) : ℚ := e.2.2.2.1

/-- The consecutive-duplicate-timestamp filter of
realign_into_8ms_sampling: keep a row only when its timestamp differs from
the timestamp of the last kept row; lastT is the timestamp of the last kept
row so far. -/
def dedupLoop (lastT : ℚ) : List Row → List Row
  | [] => []
  | e :: rest =>
    if rowT e = lastT then dedupLoop lastT rest
    else e :: dedupLoop (rowT e) rest

/-- The exceptions realign_into_8ms_sampling can raise: the IndexError from
indexing data[0] on an empty input, and the ValueError raised by the scipy
CubicSpline constructor when fewer than 2 points remain (insufficient data)
or when the sorted x sequence is not strictly increasing. -/
inductive RealignError where
  | indexError
  | insufficientData
  | nonStrictlyIncreasing
  deriving Repr, DecidableEq

/-- numpy.arange(0, stop, step) for a positive step: the values
0, step, 2 step, ... strictly below stop. -/
def arange0 (stop step : ℚ) : List ℚ :=
  (List.range (if stop ≤ 0 then 0 else (⌈stop / step⌉).toNat)).map (fun i => (i : ℚ) * step)

/-- realign_into_8ms_sampling: drop consecutive rows with repeated
timestamps, sort by timestamp (Python sorted is a stable merge sort),
validate as the scipy CubicSpline constructor does (at least 2 points,
strictly increasing x), then evaluate the per-column interpolation worker on
the 8 ms grid up to the last timestamp. The interpolation worker itself
(scipy CubicSpline) is an external numeric routine and is passed as the
spline argument; the validation and control flow are what is modelled. -/
def realign_into_8ms_sampling (spline : List ℚ → List ℚ → ℚ → ℚ) (data : List Row) :
    Except RealignError (List Row) :=
  match data with
  | [] => .error .indexError
  | e :: rest =>
    let d := e :: dedupLoop (rowT e) rest
    let sorted := d.mergeSort (fun a b => decide (rowT a ≤ rowT b))
    if sorted.length < 2 then .error .insufficientData
    else if ¬ List.Chain' (fun a b => rowT a < rowT b) sorted then .error .nonStrictlyIncreasing
    else
      let xs := sorted.map rowT
      let maxT := (xs.getLast?).getD 0
      let grid := arange0 maxT (8/1000)
      .ok (grid.map (fun t =>
        (spline xs (sorted.map rowC0) t, spline xs (sorted.map rowC1) t,
         spline xs (sorted.map rowC2) t, spline xs (sorted.map rowC3) t, t)))

/-! ## The acquisition loop as a transition system (RealTimeHIDReader
start, stop, _reading)

Each spawned thread runs the loop of _reading; its position is one of:
atInit (thread spawned, has not yet executed the loop prologue), atCheck
(about to test the running flag at the top of the while loop), midTick
(passed the flag test, inside one iteration), exited (the flag test failed
and the loop returned). One tick either appends one sample to the shared
buffer (the append of _reading) or goes back to the flag check without
appending (the sub-millisecond sleep branch of the pacing test). The stop
method sets running to false and immediately returns a copy of the buffer;
the copies returned so far are recorded in snapshots. The start method
unconditionally appends a new thread. The Bool index restricts the
transition relation: Step true is the full system, Step false disallows
further start calls. -/

/-- Program counter of one spawned reading thread. -/
inductive LoopPC where
  | atInit
  | atCheck
  | midTick
  | exited
  deriving Repr, DecidableEq

/-- Shared state of a RealTimeHIDReader object together with its spawned
threads and the snapshots returned by stop calls so far. Samples are
abstracted to their value column. -/
structure ReaderSys where
  running : Bool
  buffer : List ℚ
  loops : List LoopPC
  snapshots : List (List ℚ)
  deriving Repr, DecidableEq

/-- A freshly constructed reader: running is the class default false, no
thread spawned, nothing collected. -/
def initialSys : ReaderSys := ⟨false, [], [], []⟩

/-- The effect of RealTimeHIDReader.stop: clear the running flag and return
(record) a copy of the buffer. It does not join the thread. -/
def stopApply (s : ReaderSys) : ReaderSys :=
  { s with running := false, snapshots := s.snapshots ++ [s.buffer] }

/-- The effect of RealTimeHIDReader.start: unconditionally spawn one more
reading thread. There is no already-running guard in the source. -/
def startApply (s : ReaderSys) : ReaderSys :=
  { s with loops := s.loops ++ [LoopPC.atInit] }

/-- Interleaving semantics of the reader: any thread may take its next
instruction, and start or stop may be called from outside at any time. -/
inductive Step : Bool → ReaderSys → ReaderSys → Prop where
  | start (s : ReaderSys) : Step true s (startApply s)
  | init (a : Bool) (s : ReaderSys) (i : ℕ) (h : s.loops[i]? = some .atInit) :
      Step a s { s with running := true, buffer := [], loops := s.loops.set i .atCheck }
  | checkRun (a : Bool) (s : ReaderSys) (i : ℕ) (h : s.loops[i]? = some .atCheck)
      (hr : s.running = true) :
      Step a s { s with loops := s.loops.set i .midTick }
  | checkStop (a : Bool) (s : ReaderSys) (i : ℕ) (h : s.loops[i]? = some .atCheck)
      (hr : s.running = false) :
      Step a s { s with loops := s.loops.set i .exited }
  | sleepSkip (a : Bool) (s : ReaderSys) (i : ℕ) (h : s.loops[i]? = some .midTick) :
      Step a s { s with loops := s.loops.set i .atCheck }
  | tick (a : Bool) (s : ReaderSys) (i : ℕ) (v : ℚ) (h : s.loops[i]? = some .midTick) :
      Step a s { s with buffer := s.buffer ++ [v], loops := s.loops.set i .atCheck }
  | stop (a : Bool) (s : ReaderSys) : Step a s (stopApply s)

/-- Every spawned reading thread has exited its loop. -/
def allExited (s : ReaderSys) : Prop := ∀ pc ∈ s.loops, pc = LoopPC.exited

/-! ## Helper lemmas -/

theorem consume_flag (bm : BlockManager) (t : ℚ) (h : bm.empty_design_flag = true) :
    consume bm t = (.tuple4 "O" (-1) (-1) 1, bm) := by
  simp [consume, h]

theorem consume_main (bm : BlockManager) (t : ℚ) (b : Block) (bs : List Block)
    (h1 : bm.empty_design_flag = false) (h2 : bm.blocks = b :: bs) (h3 : ¬ t < b.start) :
    consume bm t =
      consumeAfterDrop bm.total
        (List.dropWhile (fun blk => decide (blk.stop < t)) (b :: bs)) t := by
  obtain ⟨blocks, total, flag⟩ := bm
  simp only at h1 h2
  subst h1 h2
  simp [consume, h3]

theorem consume_notStarted (bm : BlockManager) (t : ℚ) (b : Block) (bs : List Block)
    (h1 : bm.empty_design_flag = false) (h2 : bm.blocks = b :: bs) (h3 : t < b.start) :
    consume bm t = (.tuple3 "N" (b.start - t) (bm.total - t), bm) := by
  obtain ⟨blocks, total, flag⟩ := bm
  simp only at h1 h2
  subst h1 h2
  simp [consume, h3]

theorem mkBlocks_getLast?_stop :
    ∀ (design : List (String × ℚ)) (off : ℚ), design ≠ [] →
      ∃ b : Block, (mkBlocks off design).getLast? = some b
        ∧ b.stop = off + (design.map Prod.snd).sum := by
  intro design
  induction design with
  | nil => intro off h; exact absurd rfl h
  | cons hd tl ih =>
    intro off _
    obtain ⟨name, dur⟩ := hd
    match tl with
    | [] =>
      refine ⟨⟨name, off, off + dur⟩, ?_, ?_⟩ <;> simp [mkBlocks]
    | (n2, d2) :: tl2 =>
      obtain ⟨b, hb, hstop⟩ := ih (off + dur) (by simp)
      refine ⟨b, ?_, ?_⟩
      · rw [mkBlocks, mkBlocks, List.getLast?_cons_cons]
        rw [mkBlocks] at hb
        exact hb
      · rw [hstop]
        simp only [List.map_cons, List.sum_cons]
        ring

theorem dropWhile_ne_nil_of_getLast (p : Block → Bool) (l : List Block) (b : Block)
    (h : l.getLast? = some b) (hb : p b = false) :
    l.dropWhile p ≠ [] := by
  intro hnil
  rw [List.dropWhile_eq_nil_iff] at hnil
  have hmem : b ∈ l := List.mem_of_mem_getLast? h
  have := hnil b hmem
  rw [hb] at this
  exact Bool.false_ne_true this

theorem eq_of_mem_of_length_lt_two {α : Type} {l : List α} {a b : α}
    (h : l.length < 2) (ha : a ∈ l) (hb : b ∈ l) : a = b := by
  match l with
  | [] => cases ha
  | [x] =>
    simp only [List.mem_singleton] at ha hb
    rw [ha, hb]
  | x :: y :: tl => exact absurd h (by simp)

theorem dedupLoop_eq_nil (c : ℚ) (l : List Row) (h : ∀ x ∈ l, rowT x = c) :
    dedupLoop c l = [] := by
  induction l with
  | nil => rfl
  | cons e tl ih =>
    have he : rowT e = c := h e (List.mem_cons_self e tl)
    rw [dedupLoop, if_pos he]
    exact ih (fun x hx => h x (List.mem_cons_of_mem e hx))

/-! ## Claim C1 -/

/-- Claim C1, counterexample: on the design [(Real,10),(Fake,5)] the call
consume(10) does not return the Fake mark with remaining block 5 as the
claim states, because the pop loop of the source uses the strict comparison
t greater than stop, so the Real block with stop = 10 is not popped at
t = 10. -/
theorem c1_counterexample :
    (consume (load_design [("Real",10),("Fake",5)]) 10).1 ≠ ConsumeResult.tuple4 "F" 5 5 (1/3) := by
  norm_num [consume, load_design, mkBlocks, mark_map, consumeAfterDrop]

/-- Claim C1, amended: consume pops only blocks whose stop is strictly
below t. On [(Real,10),(Fake,5)]: consume(10) returns the Real mark T with
remaining block 0, remaining total 5 and ratio 1/3; the following
consume(15) pops Real and returns the Fake mark F with remaining (0, 0) and
ratio 0; the following consume(20) pops Fake and returns the
blocks-exhausted result. In general, for every manager state and every time
exactly equal to the front block stop, that block is NOT popped. -/
theorem c1_pop_is_strict :
    ((consume (load_design [("Real",10),("Fake",5)]) 10).1 = ConsumeResult.tuple4 "T" 0 5 (1/3)
    ∧ (consume (consume (load_design [("Real",10),("Fake",5)]) 10).2 15).1
        = ConsumeResult.tuple4 "F" 0 0 0
    ∧ (consume (consume (consume (load_design [("Real",10),("Fake",5)]) 10).2 15).2 20).1
        = ConsumeResult.tuple4 "Block empty" 0 0 0)
    ∧ ∀ (bm : BlockManager) (b : Block) (rest : List Block),
        bm.blocks = b :: rest → ((consume bm b.stop).2).blocks = b :: rest := by
  constructor
  · refine ⟨?_, ?_, ?_⟩ <;>
      (norm_num [consume, load_design, mkBlocks, mark_map, consumeAfterDrop] <;> decide)
  · intro bm b rest h
    by_cases hflag : bm.empty_design_flag = true
    · rw [consume_flag bm _ hflag]; exact h
    · have hflag2 : bm.empty_design_flag = false := by simpa using hflag
      by_cases hst : b.stop < b.start
      · rw [consume_notStarted bm b.stop b rest hflag2 h hst]; exact h
      · rw [consume_main bm b.stop b rest hflag2 h hst]
        have hd : List.dropWhile (fun blk => decide (blk.stop < b.stop)) (b :: rest)
            = b :: rest := by
          rw [List.dropWhile_cons]; simp
        rw [hd]
        by_cases htot : bm.total = 0 <;> simp [consumeAfterDrop, htot]

/-- Claim C1, witness: the general no-pop-at-exact-stop statement applied to
the front Real block of the design [(Real,10),(Fake,5)]. -/
theorem c1_witness :
    ((consume (load_design [("Real",(10:ℚ)),("Fake",5)]) (Block.mk "Real" 0 10).stop).2).blocks
      = [Block.mk "Real" 0 10, Block.mk "Fake" 10 15] :=
  c1_pop_is_strict.2 (load_design [("Real",10),("Fake",5)])
    ⟨"Real", 0, 10⟩ [⟨"Fake", 10, 15⟩] (by norm_num [load_design, mkBlocks])

/-! ## Claim C2 -/

/-- Claim C2, counterexample: a reachable run in which stop() has already
returned (its snapshot, the empty list, is recorded) while the reading
thread is still mid-iteration (program counter midTick, not exited); the
thread then appends the sample 7 and only afterwards observes the cleared
flag and exits. So stop() did not block until the thread exited, and the
sample 7, appended strictly before the loop observed the stop signal, is
not in the returned snapshot. -/
theorem c2_counterexample :
    (Relation.ReflTransGen (Step true) initialSys ⟨false, [], [.midTick], [[]]⟩
      ∧ Relation.ReflTransGen (Step true) (⟨false, [], [.midTick], [[]]⟩ : ReaderSys)
          ⟨false, [7], [.exited], [[]]⟩)
    ∧ LoopPC.midTick ≠ LoopPC.exited
    ∧ (7:ℚ) ∉ ([] : List ℚ) := by
  refine ⟨⟨?_, ?_⟩, by decide, by simp⟩
  · refine .head (Step.start _) (.head (Step.init _ _ 0 rfl)
      (.head (Step.checkRun _ _ 0 rfl rfl) (.head (Step.stop _ _) .refl)))
  · refine .head (Step.tick _ _ 0 7 rfl) (.head (Step.checkStop _ _ 0 rfl rfl) .refl)

/-- Claim C2, amended: stop() returns immediately without joining, so its
snapshot may miss samples still being appended; however, once every reading
thread has exited, the buffer never changes again along any run without
further start() calls, every state keeps all threads exited, stop() is
always enabled (it never blocks), and each further stop() records the same
snapshot, equal to the buffer at exit time. -/
theorem c2_stop_idempotent_after_exit (s s2 : ReaderSys) (hex : allExited s)
    (h : Relation.ReflTransGen (Step false) s s2) :
    s2.buffer = s.buffer ∧ allExited s2
    ∧ Step false s2 (stopApply s2)
    ∧ (stopApply s2).snapshots = s2.snapshots ++ [s.buffer] := by
  induction h with
  | refl => exact ⟨rfl, hex, Step.stop _ _, rfl⟩
  | tail hsteps hstep ih =>
    obtain ⟨hbuf, hex2, _, _⟩ := ih
    cases hstep with
    | init a s i hi =>
      exact absurd (hex2 _ (List.getElem?_mem hi)) (by decide)
    | checkRun a s i hi hr =>
      exact absurd (hex2 _ (List.getElem?_mem hi)) (by decide)
    | checkStop a s i hi hr =>
      exact absurd (hex2 _ (List.getElem?_mem hi)) (by decide)
    | sleepSkip a s i hi =>
      exact absurd (hex2 _ (List.getElem?_mem hi)) (by decide)
    | tick a s i v hi =>
      exact absurd (hex2 _ (List.getElem?_mem hi)) (by decide)
    | stop a s =>
      refine ⟨hbuf, ?_, Step.stop _ _, ?_⟩
      · intro pc hpc
        exact hex2 pc hpc
      · simp [stopApply, hbuf]

/-- Claim C2, witness: the amended statement applied to a concrete
fully-exited state with one collected sample and the empty run. -/
theorem c2_witness :
    allExited ⟨false, [3], [LoopPC.exited], []⟩
    ∧ ((ReaderSys.mk false [3] [LoopPC.exited] []).buffer
        = (ReaderSys.mk false [3] [LoopPC.exited] []).buffer
      ∧ allExited ⟨false, [3], [LoopPC.exited], []⟩
      ∧ Step false ⟨false, [3], [LoopPC.exited], []⟩ (stopApply ⟨false, [3], [LoopPC.exited], []⟩)
      ∧ (stopApply (⟨false, [3], [LoopPC.exited], []⟩ : ReaderSys)).snapshots
        = (ReaderSys.mk false [3] [LoopPC.exited] []).snapshots
          ++ [(ReaderSys.mk false [3] [LoopPC.exited] []).buffer]) :=
  ⟨by simp [allExited], c2_stop_idempotent_after_exit _ _ (by simp [allExited]) .refl⟩

/-! ## Claim C3 -/

/-- Claim C3, counterexample: the calibration triple g0 = 0, g200 = 200,
offsetG0 = 5 satisfies g200 distinct from g0, yet the conversion maps the
raw input g0 to -5, not 0, because the source subtracts offset_g0, not g0. -/
theorem c3_counterexample :
    ((200:ℤ) ≠ 0) ∧ number2pressure 0 200 5 0 ≠ 0 := by
  have hmax : (max 100 ((200:ℤ) - 0)) = 200 := by decide
  constructor
  · decide
  · norm_num [number2pressure, hmax]

/-- Claim C3, amended: for every calibration triple, degenerate or not, the
conversion maps the raw input offsetG0 (not g0) to exactly 0; and whenever
g200 - g0 is at least 100 (so the safe-divide floor is inactive) it maps
offsetG0 + (g200 - g0) to exactly 200. -/
theorem c3_zero_and_span (g0 g200 offset_g0 : ℤ) :
    number2pressure g0 g200 offset_g0 offset_g0 = 0
    ∧ (100 ≤ g200 - g0 →
        number2pressure g0 g200 offset_g0 (offset_g0 + (g200 - g0)) = 200) := by
  constructor
  · simp [number2pressure]
  · intro h
    have hmax : max 100 (g200 - g0) = g200 - g0 := max_eq_right h
    have hpos : (0:ℤ) < g200 - g0 := by omega
    have hne : ((g200 - g0 : ℤ) : ℚ) ≠ 0 := by exact_mod_cast hpos.ne'
    rw [number2pressure, hmax]
    have hne2 : (g200:ℚ) - (g0:ℚ) ≠ 0 := by push_cast at hne; exact hne
    push_cast
    field_simp

/-- Claim C3, witness: the zero-point conjunct at the degenerate triple
g0 = 0, g200 = 50, offsetG0 = 7 (where the floor is active), and the
span conjunct with its hypothesis discharged at g0 = 0, g200 = 200,
offsetG0 = 7. -/
theorem c3_witness :
    number2pressure 0 50 7 7 = 0
    ∧ ((100 ≤ (200:ℤ) - 0) ∧ number2pressure 0 200 7 (7 + (200 - 0)) = 200) :=
  ⟨(c3_zero_and_span 0 50 7).1, by decide, (c3_zero_and_span 0 200 7).2 (by decide)⟩

/-! ## Claim C4 -/

/-- Claim C4, counterexample: calling start() twice is not a no-op; the
state with two reading threads both inside the loop body (two concurrent
producers) is reachable from the initial state. -/
theorem c4_counterexample :
    Relation.ReflTransGen (Step true) initialSys ⟨true, [], [.midTick, .midTick], []⟩
    ∧ LoopPC.midTick ≠ LoopPC.exited := by
  constructor
  · refine .head (Step.start _) (.head (Step.start _) (.head (Step.init _ _ 0 rfl)
      (.head (Step.init _ _ 1 rfl) (.head (Step.checkRun _ _ 0 rfl rfl)
      (.head (Step.checkRun _ _ 1 rfl rfl) .refl)))))
  · decide

/-- Claim C4, amended: start() has no already-running guard; from any state
whatsoever, including one where the loop is already running, the start
transition is enabled and spawns one more producer thread, leaving the
running flag unchanged. -/
theorem c4_start_always_spawns (s : ReaderSys) :
    Step true s (startApply s)
    ∧ (startApply s).loops.length = s.loops.length + 1
    ∧ (startApply s).running = s.running :=
  ⟨Step.start s, by simp [startApply], rfl⟩

/-! ## Claim C5 -/

/-- Claim C5: with the design [(Real,10)] and t = -1 (any time before the
first block start, which is always 0), consume returns the bare 3-tuple
(N, firstStart - t, total - t) with no remainingRatio component, although
the docstring of consume promises four return values. This evaluates the
code at the failing input of the code_bug report. -/
theorem c5_not_started_returns_3_tuple :
    (consume (load_design [("Real", (10:ℚ))]) (-1)).1 = ConsumeResult.tuple3 "N" 1 11 := by
  norm_num [consume, load_design, mkBlocks]

/-! ## Claim C6 -/

/-- Claim C6: when the absolute deviation of the mean from the reference is
exactly the mean threshold, update_score changes no phase in either
direction (promotion needs a strictly smaller deviation, demotion a
strictly larger one), and in the 2nd phase it still adjusts score_2nd by
10 according to the std comparison and clamps it into (0, 100). -/
theorem c6_boundary_no_transition (p : ScorerParams) (s : ScorerState) (mean std : ℚ)
    (hstate : s.state = "1st" ∨ s.state = "2nd")
    (hb : |mean - p.ref_value| = p.mean_threshold) :
    (update_score p s (some [(mean, std)])).state = s.state
    ∧ (s.state = "2nd" →
        (update_score p s (some [(mean, std)])).score_2nd
          = min 100 (max 0 (s.score_2nd + (if std < p.std_threshold then 10 else -10)))) := by
  rcases hstate with h1 | h2
  · have hnl : ¬ |mean - p.ref_value| < p.mean_threshold := by
      rw [hb]; exact lt_irrefl _
    constructor
    · simp [update_score, limit_scores, h1, hnl]
    · intro h2
      rw [h1] at h2
      exact absurd h2 (by decide)
  · have hne : s.state ≠ "1st" := by rw [h2]; decide
    have hng : ¬ |mean - p.ref_value| > p.mean_threshold := by
      rw [hb]; exact lt_irrefl _
    constructor
    · simp [update_score, limit_scores, h2, hne, hng]
    · intro _
      simp [update_score, limit_scores, h2, hne, hng]

/-- Claim C6, witness: reference 400, mean threshold 20, std threshold 10,
state 2nd with score_2nd = 30, input mean 420 (deviation exactly 20) and
std 5: the phase stays 2nd and score_2nd moves to 40. -/
theorem c6_witness :
    ((ScorerState.mk "2nd" 0 30).state = "1st" ∨ (ScorerState.mk "2nd" 0 30).state = "2nd")
    ∧ (|(420:ℚ) - (ScorerParams.mk 400 20 10).ref_value|
        = (ScorerParams.mk 400 20 10).mean_threshold)
    ∧ ((update_score ⟨400, 20, 10⟩ ⟨"2nd", 0, 30⟩ (some [(420, 5)])).state = "2nd"
       ∧ (update_score ⟨400, 20, 10⟩ ⟨"2nd", 0, 30⟩ (some [(420, 5)])).score_2nd
          = min 100 (max 0 ((30:ℚ) + (if (5:ℚ) < 10 then 10 else -10)))) := by
  have hb : |(420:ℚ) - (ScorerParams.mk 400 20 10).ref_value|
      = (ScorerParams.mk 400 20 10).mean_threshold := by
    show |(420:ℚ) - 400| = 20
    rw [show (420:ℚ) - 400 = 20 by norm_num]
    exact abs_of_pos (by norm_num)
  have h := c6_boundary_no_transition ⟨400, 20, 10⟩ ⟨"2nd", 0, 30⟩ 420 5 (Or.inr rfl) hb
  exact ⟨Or.inr rfl, hb, h.1, h.2 rfl⟩

/-! ## Claim C7 -/

/-- Claim C7, counterexample: peek(0) does not return the empty list; the
slice buffer[-0:] of the source is the whole buffer, here of length 3. -/
theorem c7_counterexample :
    peek ⟨[(1,0,0,0,0),(2,0,0,0,0),(3,0,0,0,0)], []⟩ 0 false
      = [(1,0,0,0,0),(2,0,0,0,0),(3,0,0,0,0)]
    ∧ ([(1,0,0,0,0),(2,0,0,0,0),(3,0,0,0,0)] : List (ℚ×ℚ×ℚ×ℚ×ℚ)) ≠ [] :=
  ⟨rfl, by simp⟩

/-- Claim C7, amended: for every n at least 1 and every log state, peek(n)
returns exactly the last min(n, length) entries of the selected log (raw or
delayed) and is total (never raises); peek_by_seconds is peek at
int(sec times 125), truncation toward zero. The n = 0 case instead returns
the entire log. -/
theorem c7_peek_last_min (r : ReaderBuffers) (n : ℤ) (pd : Bool) (sec : ℚ) (hn : 1 ≤ n) :
    peek r n pd = (if pd then r.buffer_delay else r.buffer).drop
        ((if pd then r.buffer_delay else r.buffer).length - n.toNat)
    ∧ (peek r n pd).length = min n.toNat (if pd then r.buffer_delay else r.buffer).length
    ∧ peek_by_seconds r sec pd = peek r (pyInt (sec * 125)) pd := by
  have hn0 : ¬ n ≤ 0 := by omega
  refine ⟨?_, ?_, rfl⟩
  · cases pd <;> simp [peek, pyTailSlice, hn0]
  · cases pd <;> (simp [peek, pyTailSlice, hn0, List.length_drop]; omega)

/-- Claim C7, witness: the amended statement on a one-entry raw log with
n = 2 and sec = 1/100. -/
theorem c7_witness :
    (1 ≤ (2:ℤ))
    ∧ (peek ⟨[((5:ℚ),0,0,0,0)], []⟩ 2 false
        = (if false then ([] : List (ℚ×ℚ×ℚ×ℚ×ℚ)) else [((5:ℚ),0,0,0,0)]).drop
            ((if false then ([] : List (ℚ×ℚ×ℚ×ℚ×ℚ)) else [((5:ℚ),0,0,0,0)]).length - (2:ℤ).toNat)
       ∧ (peek ⟨[((5:ℚ),0,0,0,0)], []⟩ 2 false).length
          = min (2:ℤ).toNat (if false then ([] : List (ℚ×ℚ×ℚ×ℚ×ℚ)) else [((5:ℚ),0,0,0,0)]).length
       ∧ peek_by_seconds ⟨[((5:ℚ),0,0,0,0)], []⟩ (1/100) false
          = peek ⟨[((5:ℚ),0,0,0,0)], []⟩ (pyInt ((1/100) * 125)) false) :=
  ⟨by decide, c7_peek_last_min ⟨[((5:ℚ),0,0,0,0)], []⟩ 2 false (1/100) (by decide)⟩

/-! ## Claim C8 -/

/-- Claim C8: whenever the input log has fewer than 2 distinct timestamps,
the resampler returns an error (empty input hits the IndexError of data[0];
otherwise all rows collapse to a single point and the spline constructor
rejects it) and produces no partial result. The modelled routine is a pure
function of its input, retaining no state between calls. -/
theorem c8_too_few_timestamps_error (spline : List ℚ → List ℚ → ℚ → ℚ) (data : List Row)
    (h : ((data.map rowT).dedup).length < 2) :
    ∃ err, realign_into_8ms_sampling spline data = .error err := by
  match data with
  | [] => exact ⟨.indexError, rfl⟩
  | e :: rest =>
    have hall : ∀ x ∈ e :: rest, rowT x = rowT e := by
      intro x hx
      have hx1 : rowT x ∈ ((e :: rest).map rowT).dedup :=
        List.mem_dedup.mpr (List.mem_map_of_mem rowT hx)
      have hx2 : rowT e ∈ ((e :: rest).map rowT).dedup :=
        List.mem_dedup.mpr (List.mem_map_of_mem rowT (List.mem_cons_self e rest))
      exact eq_of_mem_of_length_lt_two h hx1 hx2
    have hrest : ∀ x ∈ rest, rowT x = rowT e :=
      fun x hx => hall x (List.mem_cons_of_mem e hx)
    have hd : dedupLoop (rowT e) rest = [] := dedupLoop_eq_nil _ _ hrest
    refine ⟨.insufficientData, ?_⟩
    rw [realign_into_8ms_sampling]
    simp only [hd, List.mergeSort_singleton]
    rfl

/-- Claim C8, witness: a two-row log sharing the timestamp 5 has a single
distinct timestamp and the resampler reports an error on it. -/
theorem c8_witness :
    (((([((1:ℚ),2,3,4,5),((9:ℚ),8,7,6,5)] : List Row).map rowT).dedup).length < 2)
    ∧ ∃ err, realign_into_8ms_sampling (fun _ _ _ => 0)
        [((1:ℚ),2,3,4,5),((9:ℚ),8,7,6,5)] = .error err :=
  ⟨by simp [rowT], c8_too_few_timestamps_error _ _ (by simp [rowT])⟩

/-! ## Claim C9 -/

/-- Claim C9: number2pressure is a total pure function over all integer
inputs; its divisor max(100, g200 - g0) never has magnitude below 100
(hence never zero), for every degenerate pair with the absolute difference
below 100 the divisor is floored to exactly 100, and the gain stays
strictly positive at the floor boundary and everywhere (no sign flip): the
converted pressure is positive exactly above the bias and negative exactly
below it. -/
theorem c9_safe_divisor (g0 g200 offset_g0 value : ℤ) :
    (100:ℤ) ≤ |max 100 (g200 - g0)|
    ∧ ((max 100 (g200 - g0) : ℤ) : ℚ) ≠ 0
    ∧ (|g200 - g0| < 100 → max 100 (g200 - g0) = 100)
    ∧ (offset_g0 < value → 0 < number2pressure g0 g200 offset_g0 value)
    ∧ (value < offset_g0 → number2pressure g0 g200 offset_g0 value < 0) := by
  have h100 : (100:ℤ) ≤ max 100 (g200 - g0) := le_max_left _ _
  have hpos : (0:ℤ) < max 100 (g200 - g0) := by omega
  have habs : |max 100 (g200 - g0)| = max 100 (g200 - g0) := abs_of_pos hpos
  have hq : (0:ℚ) < ((max 100 (g200 - g0) : ℤ) : ℚ) := by exact_mod_cast hpos
  have hk : (0:ℚ) < 200 / ((max 100 (g200 - g0) : ℤ) : ℚ) := by positivity
  refine ⟨by omega, hq.ne', fun hd => ?_, fun hv => ?_, fun hv => ?_⟩
  · have hle : g200 - g0 ≤ 100 := by
      have := abs_lt.mp hd
      omega
    exact max_eq_left hle
  · have hvq : (0:ℚ) < (value:ℚ) - (offset_g0:ℚ) := by
      rw [sub_pos]
      exact_mod_cast hv
    exact mul_pos hvq hk
  · have hvq : (value:ℚ) - (offset_g0:ℚ) < 0 := by
      rw [sub_neg]
      exact_mod_cast hv
    exact mul_neg_of_neg_of_pos hvq hk

/-- Claim C9, witness: the divisor bound, the exact floor at the degenerate
pair g0 = 0, g200 = 50, and the gain keeping its sign there: pressure
positive at raw 5 above bias 3 and negative at raw 2 below bias 3. -/
theorem c9_witness :
    ((100:ℤ) ≤ |max 100 ((50:ℤ) - 0)|)
    ∧ (|(50:ℤ) - 0| < 100)
    ∧ (max 100 ((50:ℤ) - 0) = 100)
    ∧ ((3:ℤ) < 5 ∧ 0 < number2pressure 0 50 3 5)
    ∧ ((2:ℤ) < 3 ∧ number2pressure 0 50 3 2 < 0) :=
  ⟨(c9_safe_divisor 0 50 3 5).1, by decide,
    (c9_safe_divisor 0 50 3 5).2.2.1 (by decide),
    ⟨by decide, (c9_safe_divisor 0 50 3 5).2.2.2.1 (by decide)⟩,
    ⟨by decide, (c9_safe_divisor 0 50 3 2).2.2.2.2 (by decide)⟩⟩

/-! ## Claim C10 -/

/-- Claim C10: for every non-empty design whose durations sum to zero,
consume(0) reaches the remain-ratio division with a zero divisor and raises
ZeroDivisionError instead of returning a tuple; consume is not total over
all non-empty designs. -/
theorem c10_total_zero_divides_by_zero (design : List (String × ℚ))
    (hne : design ≠ []) (hsum : (design.map Prod.snd).sum = 0) :
    (consume (load_design design) 0).1 = ConsumeResult.zeroDivisionError := by
  obtain ⟨⟨name, dur⟩, rest, rfl⟩ := List.exists_cons_of_ne_nil hne
  have hld : load_design ((name, dur) :: rest) =
      ⟨mkBlocks 0 ((name, dur) :: rest), ((name, dur) :: rest).map Prod.snd |>.sum, false⟩ := rfl
  have hblocks : (load_design ((name, dur) :: rest)).blocks =
      ⟨name, 0, 0 + dur⟩ :: mkBlocks (0 + dur) rest := by rw [hld, mkBlocks]
  obtain ⟨b, hb, hstop⟩ := mkBlocks_getLast?_stop ((name, dur) :: rest) 0 (by simp)
  have hbstop : b.stop = 0 := by rw [hstop, hsum, add_zero]
  have hdrop : (List.dropWhile (fun blk => decide (blk.stop < (0:ℚ)))
      (⟨name, 0, 0 + dur⟩ :: mkBlocks (0 + dur) rest)) ≠ [] := by
    apply dropWhile_ne_nil_of_getLast _ _ b
    · rw [← hblocks, hld]
      rw [mkBlocks] at hb
      exact hb
    · simp [hbstop]
  rw [consume_main (load_design ((name, dur) :: rest)) 0 ⟨name, 0, 0 + dur⟩
      (mkBlocks (0 + dur) rest) (by rw [hld]) hblocks (by simp)]
  obtain ⟨b0, r, hr⟩ := List.exists_cons_of_ne_nil hdrop
  rw [hr]
  have htotal : (load_design ((name, dur) :: rest)).total = 0 := by rw [hld]; exact hsum
  rw [htotal]
  simp [consumeAfterDrop]

/-- Claim C10, witness: the one-block design [(Real, 0)] has total 0 and
consume(0) on it raises ZeroDivisionError. -/
theorem c10_witness :
    (consume (load_design [("Real", (0:ℚ))]) 0).1 = ConsumeResult.zeroDivisionError :=
  c10_total_zero_divides_by_zero [("Real", 0)] (by simp) (by simp)

end PressureSW
